import Mathlib

set_option maxRecDepth 8000

deriving instance DecidableEq for Except

namespace Ollama2nix

/-! Shallow embedding of `cmd/ollama2nix/main.go` (a-h/ollama2nix).

Bytes are modelled as `Nat` values in `0..255`, Go strings/`[]byte` as Lean
`String` / `List Char` / `List Nat`, and the `strings.Builder` output as the
ordered list of strings written to it (the final recipe is their
concatenation).  Fallible Go functions return `Except String`. -/

/-- Layer struct from main.go: `digest`, `mediaType`, `size`. -/
structure Layer where
  digest : String
  mediaType : String
  size : Int
  deriving DecidableEq, Repr

/-- Manifest struct from main.go: `schemaVersion`, `mediaType`, `config`, `layers`. -/
structure Manifest where
  schemaVersion : Int
  mediaType : String
  config : Layer
  layers : List Layer
  deriving DecidableEq, Repr

/-! ### encoding/hex (Go standard library, as used by `convertOllamaHashToNixHash`) -/

/-- Go `encoding/hex.fromHexChar`: hex digit value of a character, `none` when
the character is not a hex digit (both cases accepted). -/
def fromHexChar (c : Char) : Option Nat :=
  if '0' ≤ c ∧ c ≤ '9' then some (c.toNat - '0'.toNat)
  else if 'a' ≤ c ∧ c ≤ 'f' then some (c.toNat - 'a'.toNat + 10)
  else if 'A' ≤ c ∧ c ≤ 'F' then some (c.toNat - 'A'.toNat + 10)
  else none

/-- Go `encoding/hex.DecodeString` on a character list: decodes pairs of hex
digits into bytes; an invalid digit yields an invalid-byte error, and an odd
length yields a length error (after checking the stray final digit, as Go
does). -/
def hexDecodeChars : List Char → Except String (List Nat)
  | [] => .ok []
  | [c] =>
    if (fromHexChar c).isSome then .error "encoding/hex: odd length hex string"
    else .error "encoding/hex: invalid byte"
  | a :: b :: rest =>
    match fromHexChar a, fromHexChar b with
    | some x, some y =>
      match hexDecodeChars rest with
      | .ok t => .ok ((x * 16 + y) :: t)
      | .error e => .error e
    | _, _ => .error "encoding/hex: invalid byte"

/-- The sixteen lowercase hex digits, Go's `encoding/hex` output alphabet. -/
def hexLowerTable : List Char := "0123456789abcdef".toList

/-- Lowercase hex digit for a value below 16 (Go `encoding/hex` table lookup). -/
def hexDigitLower (n : Nat) : Char := hexLowerTable.getD n '0'

/-- Go `encoding/hex.EncodeToString` on byte lists: two lowercase digits per
byte, high nibble first. -/
def hexEncodeChars : List Nat → List Char
  | [] => []
  | b :: rest => hexDigitLower (b / 16) :: hexDigitLower (b % 16) :: hexEncodeChars rest

/-! ### encoding/base64 StdEncoding (Go standard library) -/

/-- The standard base64 alphabet used by Go `base64.StdEncoding`. -/
def b64Table : List Char :=
  "ABCDEFGHIJKLMNOPQRSTUVWXYZabcdefghijklmnopqrstuvwxyz0123456789+/".toList

/-- Character for a sextet value below 64. -/
def b64Char (n : Nat) : Char := b64Table.getD n 'A'

/-- Go `base64.StdEncoding.EncodeToString`: 3-byte groups become 4 alphabet
characters; a trailing 1- or 2-byte group is padded with `=`. -/
def b64EncodeChars : List Nat → List Char
  | [] => []
  | [a] => [b64Char (a / 4), b64Char (a % 4 * 16), '=', '=']
  | [a, b] => [b64Char (a / 4), b64Char (a % 4 * 16 + b / 16), b64Char (b % 16 * 4), '=']
  | a :: b :: c :: rest =>
    b64Char (a / 4) :: b64Char (a % 4 * 16 + b / 16) :: b64Char (b % 16 * 4 + c / 64) ::
      b64Char (c % 64) :: b64EncodeChars rest

/-- Sextet value of a standard-base64 alphabet character. -/
def b64Val (c : Char) : Option Nat :=
  if 'A' ≤ c ∧ c ≤ 'Z' then some (c.toNat - 'A'.toNat)
  else if 'a' ≤ c ∧ c ≤ 'z' then some (c.toNat - 'a'.toNat + 26)
  else if '0' ≤ c ∧ c ≤ '9' then some (c.toNat - '0'.toNat + 52)
  else if c = '+' then some 62
  else if c = '/' then some 63
  else none

/-- Standard padded base64 decoding (the spec-side inverse used to state the
round-trip law): 4-character quanta, with `=` padding only in a final
quantum. -/
def b64DecodeChars : List Char → Option (List Nat)
  | [] => some []
  | p :: q :: r :: s :: rest =>
    if r = '=' ∧ s = '=' ∧ rest = [] then
      match b64Val p, b64Val q with
      | some x, some y => some [x * 4 + y / 16]
      | _, _ => none
    else if s = '=' ∧ rest = [] then
      match b64Val p, b64Val q, b64Val r with
      | some x, some y, some z => some [x * 4 + y / 16, y % 16 * 16 + z / 4]
      | _, _, _ => none
    else
      match b64Val p, b64Val q, b64Val r, b64Val s with
      | some x, some y, some z, some w =>
        match b64DecodeChars rest with
        | some t => some ((x * 4 + y / 16) :: (y % 16 * 16 + z / 4) :: (z % 4 * 64 + w) :: t)
        | none => none
      | _, _, _, _ => none
  | _ => none

/-- String wrapper for `b64EncodeChars`. -/
def b64String (bs : List Nat) : String := String.mk (b64EncodeChars bs)

/-- String wrapper for `hexEncodeChars`. -/
def hexString (bs : List Nat) : String := String.mk (hexEncodeChars bs)

/-! ### strings helpers (Go standard library) -/

/-- Go `strings.TrimPrefix`: removes `pre` from the front of `s` when it is a
prefix, otherwise returns `s` unchanged. -/
def trimPrefixString (s pre : String) : String :=
  if pre.data.isPrefixOf s.data then String.mk (s.data.drop pre.data.length) else s

/-- Go `strings.SplitN(s, ":", 2)` on a character list: at most two parts,
split at the first colon. -/
def splitN2Colon : List Char → List (List Char)
  | [] => [[]]
  | c :: cs =>
    if c = ':' then [[], cs]
    else
      match splitN2Colon cs with
      | a :: rest => (c :: a) :: rest
      | [] => [[c]]

/-- The model/version parse from `run`: `strings.SplitN(model, ":", 2)`,
first part is the model, version defaults to "latest" when there is no second
part. -/
def runParseModel (s : String) : String × String :=
  match splitN2Colon s.data with
  | m :: v :: _ => (String.mk m, String.mk v)
  | [m] => (String.mk m, "latest")
  | [] => ("", "latest")

/-! ### net/url (Go standard library, the parts `run` uses)

Modelled at character level for the ASCII range; the program only ever
escapes flag values and digest strings. -/

/-- Go `url.shouldEscape` for mode `encodePathSegment` (used by
`url.PathEscape`). -/
def shouldEscapeSegment (c : Char) : Bool :=
  if ('a' ≤ c ∧ c ≤ 'z') ∨ ('A' ≤ c ∧ c ≤ 'Z') ∨ ('0' ≤ c ∧ c ≤ '9') then false
  else if c = '-' ∨ c = '_' ∨ c = '.' ∨ c = '~' then false
  else if c = '$' ∨ c = '&' ∨ c = '+' ∨ c = ',' ∨ c = '/' ∨ c = ':' ∨ c = ';' ∨
      c = '=' ∨ c = '?' ∨ c = '@' then
    c = '/' ∨ c = ';' ∨ c = ',' ∨ c = '?'
  else true

/-- Go `url.shouldEscape` for mode `encodePath` (used by `URL.String` on the
`Path` field). -/
def shouldEscapePath (c : Char) : Bool :=
  if ('a' ≤ c ∧ c ≤ 'z') ∨ ('A' ≤ c ∧ c ≤ 'Z') ∨ ('0' ≤ c ∧ c ≤ '9') then false
  else if c = '-' ∨ c = '_' ∨ c = '.' ∨ c = '~' then false
  else if c = '$' ∨ c = '&' ∨ c = '+' ∨ c = ',' ∨ c = '/' ∨ c = ':' ∨ c = ';' ∨
      c = '=' ∨ c = '?' ∨ c = '@' then
    c = '?'
  else true

/-- Uppercase hex digit (Go `url.escape` uses the upper table). -/
def hexDigitUpper (n : Nat) : Char := "0123456789ABCDEF".toList.getD n '0'

/-- Go `url.escape`: percent-escape the characters selected by `p`. -/
def escapeWith (p : Char → Bool) (s : String) : String :=
  String.mk (s.data.foldr
    (fun c acc =>
      if p c then '%' :: hexDigitUpper (c.toNat / 16 % 16) :: hexDigitUpper (c.toNat % 16) :: acc
      else c :: acc) [])

/-- Go `url.PathEscape`. -/
def pathEscape (s : String) : String := escapeWith shouldEscapeSegment s

/-- Go `url.URL.String()` for a URL built as `url.URL{Scheme, Host, Path}`
with a non-empty plain host: scheme, "://", host, and the path escaped in
`encodePath` mode (`RawPath` is empty, so `EscapedPath` re-escapes `Path`). -/
def urlString (scheme host path : String) : String :=
  scheme ++ "://" ++ host ++ escapeWith shouldEscapePath path

/-! ### crypto/sha256 (Go standard library, as used through `sha256.New`,
`io.TeeReader` and `Sum`)

32-bit words are `Nat` values reduced modulo `2 ^ 32`. -/

/-- Reduce modulo `2 ^ 32`. -/
def w32 (x : Nat) : Nat := x % 4294967296

/-- Logical right shift of a 32-bit word. -/
def shr32 (n x : Nat) : Nat := x / 2 ^ n

/-- Right rotation of a 32-bit word. -/
def rotr32 (n x : Nat) : Nat := w32 (x / 2 ^ n + x % 2 ^ n * 2 ^ (32 - n))

/-- SHA-256 Ch function. -/
def sha2Ch (x y z : Nat) : Nat := Nat.xor (Nat.land x y) (Nat.land (w32 (Nat.xor x 4294967295)) z)

/-- SHA-256 Maj function. -/
def sha2Maj (x y z : Nat) : Nat :=
  Nat.xor (Nat.xor (Nat.land x y) (Nat.land x z)) (Nat.land y z)

/-- SHA-256 Σ0. -/
def bigSigma0 (x : Nat) : Nat := Nat.xor (Nat.xor (rotr32 2 x) (rotr32 13 x)) (rotr32 22 x)

/-- SHA-256 Σ1. -/
def bigSigma1 (x : Nat) : Nat := Nat.xor (Nat.xor (rotr32 6 x) (rotr32 11 x)) (rotr32 25 x)

/-- SHA-256 σ0. -/
def smallSigma0 (x : Nat) : Nat := Nat.xor (Nat.xor (rotr32 7 x) (rotr32 18 x)) (shr32 3 x)

/-- SHA-256 σ1. -/
def smallSigma1 (x : Nat) : Nat := Nat.xor (Nat.xor (rotr32 17 x) (rotr32 19 x)) (shr32 10 x)

/-- The SHA-256 round constants. -/
def sha2K : List Nat :=
  [1116352408, 1899447441, 3049323471, 3921009573, 961987163, 1508970993,
   2453635748, 2870763221, 3624381080, 310598401, 607225278, 1426881987,
   1925078388, 2162078206, 2614888103, 3248222580, 3835390401, 4022224774,
   264347078, 604807628, 770255983, 1249150122, 1555081692, 1996064986,
   2554220882, 2821834349, 2952996808, 3210313671, 3336571891, 3584528711,
   113926993, 338241895, 666307205, 773529912, 1294757372, 1396182291,
   1695183700, 1986661051, 2177026350, 2456956037, 2730485921, 2820302411,
   3259730800, 3345764771, 3516065817, 3600352804, 4094571909, 275423344,
   430227734, 506948616, 659060556, 883997877, 958139571, 1322822218,
   1537002063, 1747873779, 1955562222, 2024104815, 2227730452, 2361852424,
   2428436474, 2756734187, 3204031479, 3329325298]

/-- The SHA-256 initial hash value. -/
def sha2H0 : List Nat :=
  [1779033703, 3144134277, 1013904242, 2773480762, 1359893119, 2600822924,
   528734635, 1541459225]

/-- Big-endian 32-bit words from a byte list (4 bytes per word). -/
def toWordsBE : List Nat → List Nat
  | a :: b :: c :: d :: rest => (((a * 256 + b) * 256 + c) * 256 + d) :: toWordsBE rest
  | _ => []

/-- Extend a message-schedule word list by `k` further words using the SHA-256
schedule recurrence. -/
def extendSchedule (w : List Nat) : Nat → List Nat
  | 0 => w
  | Nat.succ k =>
    extendSchedule
      (w ++ [w32 (smallSigma1 (w.getD (w.length - 2) 0) + w.getD (w.length - 7) 0 +
        smallSigma0 (w.getD (w.length - 15) 0) + w.getD (w.length - 16) 0)]) k

/-- One SHA-256 round on the eight working variables. -/
def sha2Round (s : List Nat) (kw : Nat × Nat) : List Nat :=
  match s with
  | [a, b, c, d, e, f, g, h] =>
    let t1 := w32 (h + bigSigma1 e + sha2Ch e f g + kw.1 + kw.2)
    let t2 := w32 (bigSigma0 a + sha2Maj a b c)
    [w32 (t1 + t2), a, b, c, w32 (d + t1), e, f, g]
  | _ => s

/-- SHA-256 compression of one 64-byte block into the hash state. -/
def compressBlock (h : List Nat) (block : List Nat) : List Nat :=
  let w := extendSchedule (toWordsBE block) 48
  let s := (sha2K.zip w).foldl sha2Round h
  List.zipWith (fun x y => w32 (x + y)) h s

/-- Consume all complete 64-byte blocks of `data` into the hash state,
returning the new state and the unconsumed remainder; `fuel` bounds the
recursion (structural, so the kernel can evaluate it). -/
def consumeBlocksF : Nat → List Nat → List Nat → List Nat × List Nat
  | 0, h, data => (h, data)
  | Nat.succ fuel, h, data =>
    if 64 ≤ data.length then consumeBlocksF fuel (compressBlock h (data.take 64)) (data.drop 64)
    else (h, data)

/-- Consume all complete 64-byte blocks of `data` into the hash state. -/
def consumeBlocks (h data : List Nat) : List Nat × List Nat :=
  consumeBlocksF data.length h data

/-- The running state of Go's `sha256` digest: current hash words, buffered
bytes not yet forming a block, and the total number of bytes written. -/
structure Sha256State where
  h : List Nat
  buf : List Nat
  msgLen : Nat
  deriving DecidableEq, Repr

/-- `sha256.New()`: initial digest state. -/
def sha256InitState : Sha256State := ⟨sha2H0, [], 0⟩

/-- `Write` on Go's sha256 digest: append the data to the buffer, consume all
complete blocks, and add to the running length. -/
def sha256Write (s : Sha256State) (data : List Nat) : Sha256State :=
  let p := consumeBlocks s.h (s.buf ++ data)
  ⟨p.1, p.2, s.msgLen + data.length⟩

/-- Big-endian bytes of a value, `k` bytes wide. -/
def beBytes : Nat → Nat → List Nat
  | 0, _ => []
  | Nat.succ k, v => beBytes k (v / 256) ++ [v % 256]

/-- SHA-256 padding for a message of `n` bytes: `0x80`, zeros up to 56 mod
64, then the bit length as 8 big-endian bytes (Go `(*digest).checkSum`). -/
def padSuffix (n : Nat) : List Nat :=
  let t := if n % 64 < 56 then 56 - n % 64 else 120 - n % 64
  (128 :: List.replicate (t - 1) 0) ++ beBytes 8 (n * 8)

/-- Big-endian byte serialisation of the hash words. -/
def wordsToBytes (ws : List Nat) : List Nat :=
  ws.foldr (fun w acc => beBytes 4 w ++ acc) []

/-- `Sum(nil)` on Go's sha256 digest: process the buffered bytes plus padding
and serialise the final state. -/
def sha256Sum (s : Sha256State) : List Nat :=
  wordsToBytes (consumeBlocks s.h (s.buf ++ padSuffix s.msgLen)).1

/-- One-shot SHA-256 of a byte list: process the padded message block by
block from the initial state. -/
def sha256 (msg : List Nat) : List Nat :=
  wordsToBytes (consumeBlocks sha2H0 (msg ++ padSuffix msg.length)).1

/-! ### convertOllamaHashToNixHash (main.go) -/

/-- `convertOllamaHashToNixHash` from main.go: trim a `sha256:` prefix,
hex-decode the remainder, and return `sha256-` plus the standard base64
encoding of the bytes. -/
def convertOllamaHashToNixHash (hexHash : String) : Except String String :=
  let trimmed := trimPrefixString hexHash "sha256:"
  match hexDecodeChars trimmed.data with
  | .error e => .error e
  | .ok hashBytes => .ok ("sha256-" ++ b64String hashBytes)

/-! ### fmt %q (Go standard library, as used for URL and hash values)

Modelled for the ASCII range: quotes and backslashes are backslash-escaped,
other printable ASCII is kept, anything else becomes a `\xHH` escape. -/

/-- Quote one character as Go `%q` does for ASCII input. -/
def goQuoteChar (c : Char) : List Char :=
  if c = '"' then ['\\', '"']
  else if c = '\\' then ['\\', '\\']
  else if 32 ≤ c.toNat ∧ c.toNat ≤ 126 then [c]
  else ['\\', 'x', hexDigitLower (c.toNat / 16 % 16), hexDigitLower (c.toNat % 16)]

/-- Go `fmt.Sprintf("%q", s)` for ASCII strings. -/
def goQuote (s : String) : String :=
  String.mk ('"' :: s.data.foldr (fun c acc => goQuoteChar c ++ acc) ['"'])

/-! ### run (main.go)

The network and the JSON decoder are external effects; a `FetchOutcome`
records what they did: `netError` when `http.Get` itself failed, otherwise
the chunks the decoder read through the `io.TeeReader` (each chunk is also
written to the SHA-256 digest) together with the decode result. -/

/-- Outcome of the single `http.Get` plus JSON decode in `run`. -/
inductive FetchOutcome where
  | netError (msg : String)
  | decodeError (reads : List (List Nat)) (msg : String)
  | decoded (reads : List (List Nat)) (manifest : Manifest)
  deriving Repr

/-- The manifest URL `run` builds from the registry and the parsed model and
version. -/
def manifestURLOf (reg model version : String) : String :=
  urlString "https" reg ("/v2/library/" ++ pathEscape model ++ "/manifests/" ++ pathEscape version)

/-- The blob URL `run` builds for a layer: note the hardcoded `mistral-nemo`
model segment from main.go line 135. -/
def blobURLOf (reg : String) (digest : String) : String :=
  urlString "https" reg ("/v2/library/mistral-nemo/blobs/" ++ pathEscape digest)

/-- The header written before the blob loop (main.go lines 127-131). -/
def headerPieces : List String :=
  ["\x7b pkgs ? import <nixpkgs> \x7b\x7d \x7d:\n",
   "\n",
   "let\n",
   "  # List of blob files with URLs and corresponding hashes.\n"]

/-- The five strings written for one layer of the blob loop (main.go lines
132-147). -/
def blobBlockPieces (reg : String) (i : Nat) (layer : Layer) (blobNixHash : String) :
    List String :=
  ["  blob_" ++ (toString i ++ " = pkgs.fetchurl \x7b\n"),
   "    curlOptsList = [\"-L\" \"-H\" \"Accept:application/octet-stream\"];\n",
   "    url = " ++ (goQuote (blobURLOf reg layer.digest) ++ ";\n"),
   "    hash = " ++ (goQuote blobNixHash ++ ";\n"),
   "  \x7d;\n"]

/-- The blob loop of `run`: one block per layer in order, failing with the
wrapped conversion error at the first layer whose digest does not convert. -/
def emitBlobs (reg : String) (i : Nat) : List Layer → Except String (List String)
  | [] => .ok []
  | layer :: rest =>
    match convertOllamaHashToNixHash layer.digest with
    | .error e => .error ("failed to convert blob hash: " ++ e)
    | .ok nix =>
      match emitBlobs reg (i + 1) rest with
      | .error e => .error e
      | .ok ps => .ok (blobBlockPieces reg i layer nix ++ ps)

/-- The manifest fetch block (main.go lines 148-156). -/
def manifestPieces (murl b64Hash : String) : List String :=
  ["\n",
   "  # Fetch the manifest file.\n",
   "  manifestFile = pkgs.fetchurl \x7b\n",
   "    curlOptsList = [\"-L\" \"-H\" \"Accept:application/octet-stream\"];\n",
   "    url = " ++ (goQuote murl ++ ";\n"),
   "    hash = " ++ (goQuote ("sha256-" ++ b64Hash) ++ ";\n"),
   "  \x7d;\n"]

/-- The fixed strings between the manifest block and the paths loop
(main.go lines 157-163). -/
def joinHeaderPieces : List String :=
  ["in\n",
   "  # Use symlinkJoin to create the final symlinked structure.\n",
   "  pkgs.symlinkJoin \x7b\n",
   "    name = \"models\";\n",
   "\n",
   "    # Paths from both blobs and the manifest file.\n",
   "    paths = [\n"]

/-- The paths-list entries for the blobs (main.go lines 164-166). -/
def pathEntryPieces (n : Nat) : List String :=
  (List.range n).map (fun i => "      blob_" ++ (toString i ++ "\n"))

/-- The fixed strings from the manifest paths entry up to the blob symlink
loop (main.go lines 167-174). -/
def postHeadPieces : List String :=
  ["      manifestFile\n",
   "    ];\n",
   "\n",
   "    # Add a postBuild step to arrange the structure.\n",
   "    postBuild = ''\n",
   "      # Move blob files to the blobs directory.\n",
   "      mkdir -p $out/blobs\n"]

/-- The blob symlink lines of the postBuild script (main.go lines 175-177). -/
def lnEntryPieces (n : Nat) : List String :=
  (List.range n).map (fun i => "      ln -s $\x7bblob_" ++ (toString i ++ "\x7d $out/blobs/\n"))

/-- The closing strings of the recipe, including the manifest directory and
symlink lines (main.go lines 178-183). -/
def tailPieces (reg model version : String) : List String :=
  ["\n",
   "      # Move manifest file to the appropriate directory.\n",
   "      mkdir -p $out/manifests/" ++ (reg ++ ("/" ++ (model ++ "\n"))),
   "      ln -s $\x7bmanifestFile\x7d $out/manifests/" ++
     (reg ++ ("/" ++ (model ++ ("/" ++ (version ++ "\n"))))),
   "    '';\n",
   "  \x7d\n"]

/-- `run` from main.go, as a function of the two flag values and the fetch
outcome: either the ordered list of strings written to the builder, or the
error `run` returns. -/
def run (flagRegistry flagModel : String) (f : FetchOutcome) : Except String (List String) :=
  if flagRegistry = "" then .error "registry is required"
  else if flagModel = "" then .error "model is required"
  else
    let mv := runParseModel flagModel
    let murl := manifestURLOf flagRegistry mv.1 mv.2
    match f with
    | .netError e => .error ("failed to download manifest: " ++ e)
    | .decodeError _ e => .error ("failed to decode manifest: " ++ e)
    | .decoded reads man =>
      match emitBlobs flagRegistry 0 man.layers with
      | .error e => .error e
      | .ok blobPs =>
        let digest := sha256Sum (reads.foldl sha256Write sha256InitState)
        .ok (headerPieces ++ blobPs ++ manifestPieces murl (b64String digest) ++
          joinHeaderPieces ++ pathEntryPieces man.layers.length ++ postHeadPieces ++
          lnEntryPieces man.layers.length ++ tailPieces flagRegistry mv.1 mv.2)

/-- The URLs `run` requests over the network: after flag validation it always
issues exactly the single manifest GET (main.go line 117), regardless of its
result. -/
def runRequests (flagRegistry flagModel : String) : List String :=
  if flagRegistry = "" then []
  else if flagModel = "" then []
  else [manifestURLOf flagRegistry (runParseModel flagModel).1 (runParseModel flagModel).2]

/-- `main` from main.go: print the recipe (via `fmt.Println`, which appends a
newline) and exit 0 on success, print the error and exit 1 on failure. -/
def mainOutput (flagRegistry flagModel : String) (f : FetchOutcome) : String × Nat :=
  match run flagRegistry flagModel f with
  | .ok ps => (String.join ps ++ "\n", 0)
  | .error e => (e ++ "\n", 1)

/-- Whether an `Except` is a success. -/
def isOkE {ε α : Type} : Except ε α → Bool
  | .ok _ => true
  | .error _ => false

/-- The success value of an `Except`, or a default on error. -/
def okPieces (r : Except String (List String)) : List String :=
  match r with
  | .ok ps => ps
  | .error _ => []

/-! ### Lemmas: block consumption and the streaming digest -/

theorem consumeBlocksF_eq_of_le (n : Nat) :
    ∀ (fuel fuel2 : Nat) (h data : List Nat), data.length = n → data.length ≤ fuel →
      data.length ≤ fuel2 → consumeBlocksF fuel h data = consumeBlocksF fuel2 h data := by
  induction n using Nat.strong_induction_on with
  | _ n ih =>
    intro fuel fuel2 h data hn hf hf2
    by_cases hc : 64 ≤ data.length
    · cases fuel with
      | zero => omega
      | succ f1 =>
        cases fuel2 with
        | zero => omega
        | succ f2 =>
          simp only [consumeBlocksF, if_pos hc]
          have hdl : (data.drop 64).length = data.length - 64 := List.length_drop 64 data
          exact ih (data.length - 64) (by omega) f1 f2 _ _ (by omega) (by omega) (by omega)
    · cases fuel with
      | zero =>
        cases fuel2 with
        | zero => rfl
        | succ f2 => simp only [consumeBlocksF, if_neg hc]
      | succ f1 =>
        cases fuel2 with
        | zero => simp only [consumeBlocksF, if_neg hc]
        | succ f2 => simp only [consumeBlocksF, if_neg hc]

theorem consumeBlocks_step (h data : List Nat) :
    consumeBlocks h data =
      if 64 ≤ data.length then consumeBlocks (compressBlock h (data.take 64)) (data.drop 64)
      else (h, data) := by
  by_cases hc : 64 ≤ data.length
  · rw [if_pos hc]
    cases hn : data.length with
    | zero => omega
    | succ m =>
      have h1 : consumeBlocks h data = consumeBlocksF (Nat.succ m) h data := by
        rw [consumeBlocks, hn]
      rw [h1]
      simp only [consumeBlocksF, if_pos hc]
      have hdl : (data.drop 64).length = data.length - 64 := List.length_drop 64 data
      exact consumeBlocksF_eq_of_le (data.drop 64).length m (data.drop 64).length _ _ rfl
        (by omega) (by omega)
  · rw [if_neg hc, consumeBlocks]
    cases hn : data.length with
    | zero => rfl
    | succ m => simp only [consumeBlocksF, if_neg hc]

theorem consumeBlocks_append (n : Nat) :
    ∀ (h x y : List Nat), x.length = n →
      consumeBlocks h (x ++ y) =
        consumeBlocks (consumeBlocks h x).1 ((consumeBlocks h x).2 ++ y) := by
  induction n using Nat.strong_induction_on with
  | _ n ih =>
    intro h x y hn
    by_cases hc : 64 ≤ x.length
    · have hcxy : 64 ≤ (x ++ y).length := by
        rw [List.length_append]; omega
      rw [consumeBlocks_step h (x ++ y), if_pos hcxy,
        List.take_append_of_le_length (by omega), List.drop_append_of_le_length (by omega),
        consumeBlocks_step h x, if_pos hc]
      have hdl : (x.drop 64).length = x.length - 64 := List.length_drop 64 x
      exact ih (x.drop 64).length (by omega) _ _ y rfl
    · rw [consumeBlocks_step h x, if_neg hc]

theorem sha256Sum_write (s : Sha256State) (d : List Nat) :
    sha256Sum (sha256Write s d) =
      wordsToBytes
        (consumeBlocks s.h ((s.buf ++ d) ++ padSuffix (s.msgLen + d.length))).1 := by
  rw [sha256Sum, sha256Write]
  exact congrArg (fun p => wordsToBytes p.1)
    (consumeBlocks_append (s.buf ++ d).length s.h (s.buf ++ d)
      (padSuffix (s.msgLen + d.length)) rfl).symm

theorem sha256Sum_foldl_write_general (reads : List (List Nat)) :
    ∀ s : Sha256State,
      sha256Sum (reads.foldl sha256Write s) =
        wordsToBytes
          (consumeBlocks s.h ((s.buf ++ reads.flatten) ++
            padSuffix (s.msgLen + reads.flatten.length))).1 := by
  induction reads with
  | nil =>
    intro s
    simp only [List.foldl_nil, List.flatten, List.append_nil, Nat.add_zero]
    rfl
  | cons r rs ih =>
    intro s
    rw [List.foldl_cons, ih (sha256Write s r)]
    show wordsToBytes (consumeBlocks (consumeBlocks s.h (s.buf ++ r)).1
      (((consumeBlocks s.h (s.buf ++ r)).2 ++ rs.flatten) ++
        padSuffix (s.msgLen + r.length + rs.flatten.length))).1 = _
    rw [List.append_assoc (consumeBlocks s.h (s.buf ++ r)).2,
      ← consumeBlocks_append (s.buf ++ r).length s.h (s.buf ++ r) _ rfl]
    simp only [List.flatten_cons, List.length_append, ← List.append_assoc, Nat.add_assoc]

/-- The streaming digest (any chunking of the input through `Write`, then
`Sum`) equals the one-shot SHA-256 of the concatenated input. -/
theorem sha256Sum_foldl_write (reads : List (List Nat)) :
    sha256Sum (reads.foldl sha256Write sha256InitState) = sha256 reads.flatten := by
  rw [sha256Sum_foldl_write_general reads sha256InitState]
  show wordsToBytes (consumeBlocks sha2H0 (([] ++ reads.flatten) ++
    padSuffix (0 + reads.flatten.length))).1 = _
  rw [List.nil_append, Nat.zero_add, sha256]

/-! ### Lemmas: hex and base64 -/

theorem hexChar_facts :
    ∀ c ∈ hexLowerTable,
      (fromHexChar c).isSome = true ∧ (fromHexChar c).getD 0 < 16 ∧
        hexDigitLower ((fromHexChar c).getD 0) = c := by decide

theorem hexDecode_roundtrip_aux (n : Nat) :
    ∀ l : List Char, l.length = n → (∀ c ∈ l, c ∈ hexLowerTable) → l.length % 2 = 0 →
      ∃ bs, hexDecodeChars l = .ok bs ∧ (∀ b ∈ bs, b < 256) ∧ hexEncodeChars bs = l := by
  induction n using Nat.strong_induction_on with
  | _ n ih =>
    intro l hn hmem hev
    match l with
    | [] => exact ⟨[], rfl, by simp, rfl⟩
    | [c] => simp at hev
    | a :: b :: rest =>
      obtain ⟨ha1, ha2, ha3⟩ := hexChar_facts a (hmem a (by simp))
      obtain ⟨hb1, hb2, hb3⟩ := hexChar_facts b (hmem b (by simp))
      obtain ⟨x, hx⟩ := Option.isSome_iff_exists.mp ha1
      obtain ⟨y, hy⟩ := Option.isSome_iff_exists.mp hb1
      rw [hx] at ha2 ha3
      rw [hy] at hb2 hb3
      simp only [Option.getD_some] at ha2 ha3 hb2 hb3
      obtain ⟨bs, hbs1, hbs2, hbs3⟩ :=
        ih rest.length (by simp at hn; omega) rest rfl
          (fun c hc => hmem c (by simp [hc])) (by simp at hev ⊢; omega)
      refine ⟨(x * 16 + y) :: bs, ?_, ?_, ?_⟩
      · simp only [hexDecodeChars, hx, hy, hbs1]
      · intro v hv
        rcases List.mem_cons.mp hv with h1 | h1
        · omega
        · exact hbs2 v h1
      · simp only [hexEncodeChars, hbs3]
        have e1 : (x * 16 + y) / 16 = x := by omega
        have e2 : (x * 16 + y) % 16 = y := by omega
        rw [e1, e2, ha3, hb3]

/-- Decoding a lowercase-hex character list of even length succeeds, yields
bytes below 256, and re-encoding them with the lowercase hex alphabet gives
back the input. -/
theorem hexDecode_roundtrip (l : List Char) (hmem : ∀ c ∈ l, c ∈ hexLowerTable)
    (hev : l.length % 2 = 0) :
    ∃ bs, hexDecodeChars l = .ok bs ∧ (∀ b ∈ bs, b < 256) ∧ hexEncodeChars bs = l :=
  hexDecode_roundtrip_aux l.length l rfl hmem hev

theorem hexDecode_error_iff_aux (n : Nat) :
    ∀ l : List Char, l.length = n →
      (isOkE (hexDecodeChars l) = false ↔ (Odd l.length ∨ ∃ c ∈ l, fromHexChar c = none)) := by
  induction n using Nat.strong_induction_on with
  | _ n ih =>
    intro l hn
    match l with
    | [] =>
      simp [hexDecodeChars, isOkE, Nat.odd_iff]
    | [c] =>
      constructor
      · intro _
        left
        simp [Nat.odd_iff]
      · intro _
        by_cases hc : (fromHexChar c).isSome
        · simp [hexDecodeChars, hc, isOkE]
        · simp [hexDecodeChars, hc, isOkE]
    | a :: b :: rest =>
      have hrest := ih rest.length (by simp at hn; omega) rest rfl
      constructor
      · intro herr
        match hfa : fromHexChar a, hfb : fromHexChar b with
        | some x, some y =>
          simp only [hexDecodeChars, hfa, hfb] at herr
          match hr : hexDecodeChars rest with
          | .ok t => rw [hr] at herr; simp [isOkE] at herr
          | .error e =>
            have := hrest.mp (by rw [hr]; rfl)
            rcases this with h1 | ⟨c, hc1, hc2⟩
            · left
              rcases h1 with ⟨k, hk⟩
              exact ⟨k + 1, by simp; omega⟩
            · right
              exact ⟨c, by simp [hc1], hc2⟩
        | some _, none =>
          right; exact ⟨b, by simp, hfb⟩
        | none, _ =>
          right; exact ⟨a, by simp, hfa⟩
      · intro hbad
        match hfa : fromHexChar a, hfb : fromHexChar b with
        | some x, some y =>
          simp only [hexDecodeChars, hfa, hfb]
          have hrerr : isOkE (hexDecodeChars rest) = false := by
            apply hrest.mpr
            rcases hbad with h1 | ⟨c, hc1, hc2⟩
            · left
              rcases h1 with ⟨k, hk⟩
              refine ⟨k - 1, ?_⟩
              simp at hk ⊢
              omega
            · rcases List.mem_cons.mp hc1 with h2 | h2
              · rw [h2, hfa] at hc2; cases hc2
              · rcases List.mem_cons.mp h2 with h3 | h3
                · rw [h3, hfb] at hc2; cases hc2
                · right; exact ⟨c, h3, hc2⟩
          match hr : hexDecodeChars rest with
          | .ok t => rw [hr] at hrerr; simp [isOkE] at hrerr
          | .error e => simp [isOkE]
        | some _, none =>
          simp [hexDecodeChars, hfa, hfb, isOkE]
        | none, _ =>
          cases hfb2 : fromHexChar b <;> simp [hexDecodeChars, hfa, hfb2, isOkE]

/-- Hex decoding fails exactly on odd length or a non-hex character. -/
theorem hexDecode_error_iff (l : List Char) :
    isOkE (hexDecodeChars l) = false ↔ (Odd l.length ∨ ∃ c ∈ l, fromHexChar c = none) :=
  hexDecode_error_iff_aux l.length l rfl

theorem b64Char_val : ∀ n, n < 64 → b64Val (b64Char n) = some n := by decide

theorem b64Char_ne_pad : ∀ n, n < 64 → ¬ b64Char n = '=' := by decide

theorem b64_roundtrip_aux (n : Nat) :
    ∀ bs : List Nat, bs.length = n → (∀ b ∈ bs, b < 256) →
      b64DecodeChars (b64EncodeChars bs) = some bs := by
  induction n using Nat.strong_induction_on with
  | _ n ih =>
    intro bs hn hb
    match bs with
    | [] => rfl
    | [a] =>
      have ha : a < 256 := hb a (by simp)
      have h1 := b64Char_val (a / 4) (by omega)
      have h2 := b64Char_val (a % 4 * 16) (by omega)
      have e1 : a / 4 * 4 + a % 4 * 16 / 16 = a := by omega
      simp [b64EncodeChars, b64DecodeChars, h1, h2, e1]
      omega
    | [a, b] =>
      have ha : a < 256 := hb a (by simp)
      have hob : b < 256 := hb b (by simp)
      have h1 := b64Char_val (a / 4) (by omega)
      have h2 := b64Char_val (a % 4 * 16 + b / 16) (by omega)
      have h3 := b64Char_val (b % 16 * 4) (by omega)
      have hne : b64Char (b % 16 * 4) ≠ '=' := b64Char_ne_pad (b % 16 * 4) (by omega)
      have e1 : a / 4 * 4 + (a % 4 * 16 + b / 16) / 16 = a := by omega
      have e2 : (a % 4 * 16 + b / 16) % 16 * 16 + b % 16 * 4 / 4 = b := by omega
      simp [b64EncodeChars, b64DecodeChars, hne, h1, h2, h3, e1, e2]
      omega
    | [a, b, c] =>
      have ha : a < 256 := hb a (by simp)
      have hob : b < 256 := hb b (by simp)
      have hc : c < 256 := hb c (by simp)
      have h1 := b64Char_val (a / 4) (by omega)
      have h2 := b64Char_val (a % 4 * 16 + b / 16) (by omega)
      have h3 := b64Char_val (b % 16 * 4 + c / 64) (by omega)
      have h4 := b64Char_val (c % 64) (by omega)
      have hne1 : b64Char (b % 16 * 4 + c / 64) ≠ '=' :=
        b64Char_ne_pad (b % 16 * 4 + c / 64) (by omega)
      have hne2 : b64Char (c % 64) ≠ '=' := b64Char_ne_pad (c % 64) (by omega)
      have e1 : a / 4 * 4 + (a % 4 * 16 + b / 16) / 16 = a := by omega
      have e2 : (a % 4 * 16 + b / 16) % 16 * 16 + (b % 16 * 4 + c / 64) / 4 = b := by omega
      have e3 : (b % 16 * 4 + c / 64) % 4 * 64 + c % 64 = c := by omega
      simp [b64EncodeChars, b64DecodeChars, hne1, hne2, h1, h2, h3, h4, e1, e2, e3]
    | a :: b :: c :: d :: rest =>
      have ha : a < 256 := hb a (by simp)
      have hob : b < 256 := hb b (by simp)
      have hc : c < 256 := hb c (by simp)
      have hrec := ih (d :: rest).length (by simp at hn ⊢; omega) (d :: rest) rfl
        (fun v hv => hb v (by simp at hv ⊢; tauto))
      have h1 := b64Char_val (a / 4) (by omega)
      have h2 := b64Char_val (a % 4 * 16 + b / 16) (by omega)
      have h3 := b64Char_val (b % 16 * 4 + c / 64) (by omega)
      have h4 := b64Char_val (c % 64) (by omega)
      have hne1 : b64Char (b % 16 * 4 + c / 64) ≠ '=' :=
        b64Char_ne_pad (b % 16 * 4 + c / 64) (by omega)
      have hne2 : b64Char (c % 64) ≠ '=' := b64Char_ne_pad (c % 64) (by omega)
      have e1 : a / 4 * 4 + (a % 4 * 16 + b / 16) / 16 = a := by omega
      have e2 : (a % 4 * 16 + b / 16) % 16 * 16 + (b % 16 * 4 + c / 64) / 4 = b := by omega
      have e3 : (b % 16 * 4 + c / 64) % 4 * 64 + c % 64 = c := by omega
      show b64DecodeChars (b64Char (a / 4) :: b64Char (a % 4 * 16 + b / 16) ::
        b64Char (b % 16 * 4 + c / 64) :: b64Char (c % 64) :: b64EncodeChars (d :: rest)) = _
      simp [b64DecodeChars, hne1, hne2, h1, h2, h3, h4, e1, e2, e3, hrec]

/-- Standard base64 decoding inverts the standard padded base64 encoding on
byte lists. -/
theorem b64_roundtrip (bs : List Nat) (hb : ∀ b ∈ bs, b < 256) :
    b64DecodeChars (b64EncodeChars bs) = some bs :=
  b64_roundtrip_aux bs.length bs rfl hb

/-! ### Lemmas: identifying pieces of the emitted recipe -/

theorem isPrefixOf_append_self (p t : List Char) : p.isPrefixOf (p ++ t) = true := by
  rw [List.isPrefixOf_iff_prefix]
  exact List.prefix_append p t

theorem isPrefixOf_getD (p t : List Char) (h : p.isPrefixOf t = true) (k : Nat)
    (hk : k < p.length) : t.getD k 'a' = p.getD k 'a' := by
  rw [List.isPrefixOf_iff_prefix] at h
  obtain ⟨r, hr⟩ := h
  rw [← hr]
  exact List.getD_append _ _ _ _ hk

/-- Whether the string `pre` is a prefix of the piece `p`. -/
def pieceStarts (pre p : String) : Bool := pre.data.isPrefixOf p.data

theorem pieceStarts_append_self (pre rest : String) : pieceStarts pre (pre ++ rest) = true := by
  rw [pieceStarts, String.data_append]
  exact isPrefixOf_append_self _ _

theorem pieceStarts_false_of_getD (pre p : String) (k : Nat) (hk : k < pre.data.length)
    (h : ¬ p.data.getD k 'a' = pre.data.getD k 'a') : pieceStarts pre p = false := by
  cases hps : pieceStarts pre p
  · rfl
  · exact absurd (isPrefixOf_getD pre.data p.data hps k hk) h

theorem string_getD_append (lit rest : String) (k : Nat) (hk : k < lit.data.length) :
    (lit ++ rest).data.getD k 'a' = lit.data.getD k 'a' := by
  rw [String.data_append]
  exact List.getD_append _ _ _ _ hk

theorem pieceStarts_lit_false (pre lit rest : String) (k : Nat) (hk : k < pre.data.length)
    (hk2 : k < lit.data.length) (h : ¬ lit.data.getD k 'a' = pre.data.getD k 'a') :
    pieceStarts pre (lit ++ rest) = false :=
  pieceStarts_false_of_getD pre (lit ++ rest) k hk
    (by rw [string_getD_append lit rest k hk2]; exact h)

theorem lit_beq_false (lit rest t : String) (k : Nat) (hk : k < lit.data.length)
    (h : ¬ lit.data.getD k 'a' = t.data.getD k 'a') : ((lit ++ rest) == t) = false := by
  apply beq_eq_false_iff_ne.mpr
  intro he
  exact h (by rw [← he, string_getD_append lit rest k hk])

/-- A blob fetch-declaration header `blob_<i> = pkgs.fetchurl {`. -/
def isBlobHeaderPiece (p : String) : Bool := pieceStarts "  blob_" p

/-- The manifest fetch-declaration header. -/
def isManifestHeaderPiece (p : String) : Bool := p == "  manifestFile = pkgs.fetchurl \x7b\n"

/-- A symbol entry in the aggregation's `paths` list. -/
def isPathEntryPiece (p : String) : Bool :=
  pieceStarts "      blob_" p || p == "      manifestFile\n"

/-- A blob symlink line of the postBuild script. -/
def isLnBlobPiece (p : String) : Bool := pieceStarts "      ln -s $\x7bblob_" p

theorem blobBlock_filters (reg : String) (i : Nat) (layer : Layer) (nix : String) :
    (blobBlockPieces reg i layer nix).filter isBlobHeaderPiece =
        ["  blob_" ++ (toString i ++ " = pkgs.fetchurl \x7b\n")] ∧
      (blobBlockPieces reg i layer nix).filter isManifestHeaderPiece = [] ∧
      (blobBlockPieces reg i layer nix).filter isPathEntryPiece = [] ∧
      (blobBlockPieces reg i layer nix).filter isLnBlobPiece = [] := by
  have a1 : isBlobHeaderPiece ("  blob_" ++ (toString i ++ " = pkgs.fetchurl \x7b\n")) = true :=
    pieceStarts_append_self _ _
  have b1 : isBlobHeaderPiece
      ("    url = " ++ (goQuote (blobURLOf reg layer.digest) ++ ";\n")) = false :=
    pieceStarts_lit_false _ "    url = " _ 2 (by decide) (by decide) (by decide)
  have c1 : isBlobHeaderPiece ("    hash = " ++ (goQuote nix ++ ";\n")) = false :=
    pieceStarts_lit_false _ "    hash = " _ 2 (by decide) (by decide) (by decide)
  have a2 : isManifestHeaderPiece ("  blob_" ++ (toString i ++ " = pkgs.fetchurl \x7b\n")) =
      false := lit_beq_false "  blob_" _ _ 2 (by decide) (by decide)
  have b2 : isManifestHeaderPiece
      ("    url = " ++ (goQuote (blobURLOf reg layer.digest) ++ ";\n")) = false :=
    lit_beq_false "    url = " _ _ 2 (by decide) (by decide)
  have c2 : isManifestHeaderPiece ("    hash = " ++ (goQuote nix ++ ";\n")) = false :=
    lit_beq_false "    hash = " _ _ 2 (by decide) (by decide)
  have a3 : isPathEntryPiece ("  blob_" ++ (toString i ++ " = pkgs.fetchurl \x7b\n")) =
      false := by
    have p1 : pieceStarts "      blob_" ("  blob_" ++ (toString i ++ " = pkgs.fetchurl \x7b\n")) =
        false := pieceStarts_lit_false _ "  blob_" _ 2 (by decide) (by decide) (by decide)
    have p2 : (("  blob_" ++ (toString i ++ " = pkgs.fetchurl \x7b\n")) ==
        "      manifestFile\n") = false := lit_beq_false "  blob_" _ _ 2 (by decide) (by decide)
    simp [isPathEntryPiece, p1, p2]
  have b3 : isPathEntryPiece
      ("    url = " ++ (goQuote (blobURLOf reg layer.digest) ++ ";\n")) = false := by
    have p1 : pieceStarts "      blob_"
        ("    url = " ++ (goQuote (blobURLOf reg layer.digest) ++ ";\n")) = false :=
      pieceStarts_lit_false _ "    url = " _ 4 (by decide) (by decide) (by decide)
    have p2 : (("    url = " ++ (goQuote (blobURLOf reg layer.digest) ++ ";\n")) ==
        "      manifestFile\n") = false := lit_beq_false "    url = " _ _ 4 (by decide) (by decide)
    simp [isPathEntryPiece, p1, p2]
  have c3 : isPathEntryPiece ("    hash = " ++ (goQuote nix ++ ";\n")) = false := by
    have p1 : pieceStarts "      blob_" ("    hash = " ++ (goQuote nix ++ ";\n")) = false :=
      pieceStarts_lit_false _ "    hash = " _ 4 (by decide) (by decide) (by decide)
    have p2 : (("    hash = " ++ (goQuote nix ++ ";\n")) == "      manifestFile\n") = false :=
      lit_beq_false "    hash = " _ _ 4 (by decide) (by decide)
    simp [isPathEntryPiece, p1, p2]
  have a4 : isLnBlobPiece ("  blob_" ++ (toString i ++ " = pkgs.fetchurl \x7b\n")) = false :=
    pieceStarts_lit_false _ "  blob_" _ 2 (by decide) (by decide) (by decide)
  have b4 : isLnBlobPiece
      ("    url = " ++ (goQuote (blobURLOf reg layer.digest) ++ ";\n")) = false :=
    pieceStarts_lit_false _ "    url = " _ 4 (by decide) (by decide) (by decide)
  have c4 : isLnBlobPiece ("    hash = " ++ (goQuote nix ++ ";\n")) = false :=
    pieceStarts_lit_false _ "    hash = " _ 6 (by decide) (by decide) (by decide)
  refine ⟨?_, ?_, ?_, ?_⟩ <;>
    simp [blobBlockPieces, List.filter, a1, b1, c1, a2, b2, c2, a3, b3, c3, a4, b4, c4] <;>
    decide

theorem manifestPieces_filters (murl b64Hash : String) :
    (manifestPieces murl b64Hash).filter isBlobHeaderPiece = [] ∧
      (manifestPieces murl b64Hash).filter isManifestHeaderPiece =
        ["  manifestFile = pkgs.fetchurl \x7b\n"] ∧
      (manifestPieces murl b64Hash).filter isPathEntryPiece = [] ∧
      (manifestPieces murl b64Hash).filter isLnBlobPiece = [] := by
  have b1 : isBlobHeaderPiece ("    url = " ++ (goQuote murl ++ ";\n")) = false :=
    pieceStarts_lit_false _ "    url = " _ 2 (by decide) (by decide) (by decide)
  have c1 : isBlobHeaderPiece
      ("    hash = " ++ (goQuote ("sha256-" ++ b64Hash) ++ ";\n")) = false :=
    pieceStarts_lit_false _ "    hash = " _ 2 (by decide) (by decide) (by decide)
  have b2 : isManifestHeaderPiece ("    url = " ++ (goQuote murl ++ ";\n")) = false :=
    lit_beq_false "    url = " _ _ 2 (by decide) (by decide)
  have c2 : isManifestHeaderPiece
      ("    hash = " ++ (goQuote ("sha256-" ++ b64Hash) ++ ";\n")) = false :=
    lit_beq_false "    hash = " _ _ 2 (by decide) (by decide)
  have b3 : isPathEntryPiece ("    url = " ++ (goQuote murl ++ ";\n")) = false := by
    have p1 : pieceStarts "      blob_" ("    url = " ++ (goQuote murl ++ ";\n")) = false :=
      pieceStarts_lit_false _ "    url = " _ 4 (by decide) (by decide) (by decide)
    have p2 : (("    url = " ++ (goQuote murl ++ ";\n")) == "      manifestFile\n") = false :=
      lit_beq_false "    url = " _ _ 4 (by decide) (by decide)
    simp [isPathEntryPiece, p1, p2]
  have c3 : isPathEntryPiece
      ("    hash = " ++ (goQuote ("sha256-" ++ b64Hash) ++ ";\n")) = false := by
    have p1 : pieceStarts "      blob_"
        ("    hash = " ++ (goQuote ("sha256-" ++ b64Hash) ++ ";\n")) = false :=
      pieceStarts_lit_false _ "    hash = " _ 4 (by decide) (by decide) (by decide)
    have p2 : (("    hash = " ++ (goQuote ("sha256-" ++ b64Hash) ++ ";\n")) ==
        "      manifestFile\n") = false := lit_beq_false "    hash = " _ _ 4 (by decide) (by decide)
    simp [isPathEntryPiece, p1, p2]
  have b4 : isLnBlobPiece ("    url = " ++ (goQuote murl ++ ";\n")) = false :=
    pieceStarts_lit_false _ "    url = " _ 4 (by decide) (by decide) (by decide)
  have c4 : isLnBlobPiece
      ("    hash = " ++ (goQuote ("sha256-" ++ b64Hash) ++ ";\n")) = false :=
    pieceStarts_lit_false _ "    hash = " _ 6 (by decide) (by decide) (by decide)
  refine ⟨?_, ?_, ?_, ?_⟩ <;>
    simp [manifestPieces, List.filter, b1, c1, b2, c2, b3, c3, b4, c4] <;>
    decide

theorem tailPieces_filters (reg model version : String) :
    (tailPieces reg model version).filter isBlobHeaderPiece = [] ∧
      (tailPieces reg model version).filter isManifestHeaderPiece = [] ∧
      (tailPieces reg model version).filter isPathEntryPiece = [] ∧
      (tailPieces reg model version).filter isLnBlobPiece = [] := by
  have f1 : isBlobHeaderPiece
      ("      mkdir -p $out/manifests/" ++ (reg ++ ("/" ++ (model ++ "\n")))) = false :=
    pieceStarts_lit_false _ "      mkdir -p $out/manifests/" _ 2 (by decide) (by decide)
      (by decide)
  have g1 : isBlobHeaderPiece ("      ln -s $\x7bmanifestFile\x7d $out/manifests/" ++
      (reg ++ ("/" ++ (model ++ ("/" ++ (version ++ "\n")))))) = false :=
    pieceStarts_lit_false _ "      ln -s $\x7bmanifestFile\x7d $out/manifests/" _ 2 (by decide)
      (by decide) (by decide)
  have f2 : isManifestHeaderPiece
      ("      mkdir -p $out/manifests/" ++ (reg ++ ("/" ++ (model ++ "\n")))) = false :=
    lit_beq_false "      mkdir -p $out/manifests/" _ _ 2 (by decide) (by decide)
  have g2 : isManifestHeaderPiece ("      ln -s $\x7bmanifestFile\x7d $out/manifests/" ++
      (reg ++ ("/" ++ (model ++ ("/" ++ (version ++ "\n")))))) = false :=
    lit_beq_false "      ln -s $\x7bmanifestFile\x7d $out/manifests/" _ _ 2 (by decide)
      (by decide)
  have f3 : isPathEntryPiece
      ("      mkdir -p $out/manifests/" ++ (reg ++ ("/" ++ (model ++ "\n")))) = false := by
    have p1 : pieceStarts "      blob_"
        ("      mkdir -p $out/manifests/" ++ (reg ++ ("/" ++ (model ++ "\n")))) = false :=
      pieceStarts_lit_false _ "      mkdir -p $out/manifests/" _ 6 (by decide) (by decide)
        (by decide)
    have p2 : (("      mkdir -p $out/manifests/" ++ (reg ++ ("/" ++ (model ++ "\n")))) ==
        "      manifestFile\n") = false :=
      lit_beq_false "      mkdir -p $out/manifests/" _ _ 7 (by decide) (by decide)
    simp [isPathEntryPiece, p1, p2]
  have g3 : isPathEntryPiece ("      ln -s $\x7bmanifestFile\x7d $out/manifests/" ++
      (reg ++ ("/" ++ (model ++ ("/" ++ (version ++ "\n")))))) = false := by
    have p1 : pieceStarts "      blob_" ("      ln -s $\x7bmanifestFile\x7d $out/manifests/" ++
        (reg ++ ("/" ++ (model ++ ("/" ++ (version ++ "\n")))))) = false :=
      pieceStarts_lit_false _ "      ln -s $\x7bmanifestFile\x7d $out/manifests/" _ 6 (by decide)
        (by decide) (by decide)
    have p2 : (("      ln -s $\x7bmanifestFile\x7d $out/manifests/" ++
        (reg ++ ("/" ++ (model ++ ("/" ++ (version ++ "\n")))))) == "      manifestFile\n") =
        false :=
      lit_beq_false "      ln -s $\x7bmanifestFile\x7d $out/manifests/" _ _ 6 (by decide)
        (by decide)
    simp [isPathEntryPiece, p1, p2]
  have f4 : isLnBlobPiece
      ("      mkdir -p $out/manifests/" ++ (reg ++ ("/" ++ (model ++ "\n")))) = false :=
    pieceStarts_lit_false _ "      mkdir -p $out/manifests/" _ 6 (by decide) (by decide)
      (by decide)
  have g4 : isLnBlobPiece ("      ln -s $\x7bmanifestFile\x7d $out/manifests/" ++
      (reg ++ ("/" ++ (model ++ ("/" ++ (version ++ "\n")))))) = false :=
    pieceStarts_lit_false _ "      ln -s $\x7bmanifestFile\x7d $out/manifests/" _ 14 (by decide)
      (by decide) (by decide)
  refine ⟨?_, ?_, ?_, ?_⟩ <;>
    simp [tailPieces, List.filter, f1, g1, f2, g2, f3, g3, f4, g4] <;>
    decide

theorem pathEntryPieces_filters (n : Nat) :
    (pathEntryPieces n).filter isBlobHeaderPiece = [] ∧
      (pathEntryPieces n).filter isManifestHeaderPiece = [] ∧
      (pathEntryPieces n).filter isPathEntryPiece = pathEntryPieces n ∧
      (pathEntryPieces n).filter isLnBlobPiece = [] := by
  refine ⟨?_, ?_, ?_, ?_⟩
  · apply List.filter_eq_nil_iff.mpr
    intro a ha
    simp only [pathEntryPieces, List.mem_map] at ha
    obtain ⟨i, _, hi⟩ := ha
    rw [← hi]
    have p1 : pieceStarts "  blob_" ("      blob_" ++ (toString i ++ "\n")) = false :=
      pieceStarts_lit_false "  blob_" "      blob_" (toString i ++ "\n") 2 (by decide)
        (by decide) (by decide)
    simp [isBlobHeaderPiece, p1]
  · apply List.filter_eq_nil_iff.mpr
    intro a ha
    simp only [pathEntryPieces, List.mem_map] at ha
    obtain ⟨i, _, hi⟩ := ha
    rw [← hi]
    have p1 : (("      blob_" ++ (toString i ++ "\n")) ==
        "  manifestFile = pkgs.fetchurl \x7b\n") = false :=
      lit_beq_false "      blob_" (toString i ++ "\n") _ 2 (by decide) (by decide)
    simp [isManifestHeaderPiece, p1]
  · apply List.filter_eq_self.mpr
    intro a ha
    simp only [pathEntryPieces, List.mem_map] at ha
    obtain ⟨i, _, hi⟩ := ha
    rw [← hi]
    simp [isPathEntryPiece, pieceStarts_append_self]
  · apply List.filter_eq_nil_iff.mpr
    intro a ha
    simp only [pathEntryPieces, List.mem_map] at ha
    obtain ⟨i, _, hi⟩ := ha
    rw [← hi]
    have p1 : pieceStarts "      ln -s $\x7bblob_" ("      blob_" ++ (toString i ++ "\n")) =
        false :=
      pieceStarts_lit_false "      ln -s $\x7bblob_" "      blob_" (toString i ++ "\n") 6
        (by decide) (by decide) (by decide)
    simp [isLnBlobPiece, p1]

theorem lnEntryPieces_filters (n : Nat) :
    (lnEntryPieces n).filter isBlobHeaderPiece = [] ∧
      (lnEntryPieces n).filter isManifestHeaderPiece = [] ∧
      (lnEntryPieces n).filter isPathEntryPiece = [] ∧
      (lnEntryPieces n).filter isLnBlobPiece = lnEntryPieces n := by
  refine ⟨?_, ?_, ?_, ?_⟩
  · apply List.filter_eq_nil_iff.mpr
    intro a ha
    simp only [lnEntryPieces, List.mem_map] at ha
    obtain ⟨i, _, hi⟩ := ha
    rw [← hi]
    have p1 : pieceStarts "  blob_"
        ("      ln -s $\x7bblob_" ++ (toString i ++ "\x7d $out/blobs/\n")) = false :=
      pieceStarts_lit_false "  blob_" "      ln -s $\x7bblob_"
        (toString i ++ "\x7d $out/blobs/\n") 2 (by decide) (by decide) (by decide)
    simp [isBlobHeaderPiece, p1]
  · apply List.filter_eq_nil_iff.mpr
    intro a ha
    simp only [lnEntryPieces, List.mem_map] at ha
    obtain ⟨i, _, hi⟩ := ha
    rw [← hi]
    have p1 : (("      ln -s $\x7bblob_" ++ (toString i ++ "\x7d $out/blobs/\n")) ==
        "  manifestFile = pkgs.fetchurl \x7b\n") = false :=
      lit_beq_false "      ln -s $\x7bblob_" (toString i ++ "\x7d $out/blobs/\n") _ 2
        (by decide) (by decide)
    simp [isManifestHeaderPiece, p1]
  · apply List.filter_eq_nil_iff.mpr
    intro a ha
    simp only [lnEntryPieces, List.mem_map] at ha
    obtain ⟨i, _, hi⟩ := ha
    rw [← hi]
    have p1 : pieceStarts "      blob_"
        ("      ln -s $\x7bblob_" ++ (toString i ++ "\x7d $out/blobs/\n")) = false :=
      pieceStarts_lit_false _ "      ln -s $\x7bblob_" _ 6 (by decide) (by decide) (by decide)
    have p2 : (("      ln -s $\x7bblob_" ++ (toString i ++ "\x7d $out/blobs/\n")) ==
        "      manifestFile\n") = false :=
      lit_beq_false "      ln -s $\x7bblob_" _ _ 6 (by decide) (by decide)
    simp [isPathEntryPiece, p1, p2]
  · apply List.filter_eq_self.mpr
    intro a ha
    simp only [lnEntryPieces, List.mem_map] at ha
    obtain ⟨i, _, hi⟩ := ha
    rw [← hi]
    simp [isLnBlobPiece, pieceStarts_append_self]

theorem emitBlobs_filters (reg : String) :
    ∀ (ls : List Layer) (i : Nat) (ps : List String), emitBlobs reg i ls = .ok ps →
      ps.filter isBlobHeaderPiece =
          (List.range' i ls.length).map
            (fun j => "  blob_" ++ (toString j ++ " = pkgs.fetchurl \x7b\n")) ∧
        ps.filter isManifestHeaderPiece = [] ∧
        ps.filter isPathEntryPiece = [] ∧
        ps.filter isLnBlobPiece = [] := by
  intro ls
  induction ls with
  | nil =>
    intro i ps h
    simp only [emitBlobs, Except.ok.injEq] at h
    rw [← h]
    exact ⟨rfl, rfl, rfl, rfl⟩
  | cons layer rest ih =>
    intro i ps h
    simp only [emitBlobs] at h
    cases hc : convertOllamaHashToNixHash layer.digest with
    | error e => rw [hc] at h; cases h
    | ok nix =>
      rw [hc] at h
      cases hr : emitBlobs reg (i + 1) rest with
      | error e => rw [hr] at h; cases h
      | ok tail =>
        rw [hr] at h
        simp only [Except.ok.injEq] at h
        rw [← h]
        obtain ⟨t1, t2, t3, t4⟩ := ih (i + 1) tail hr
        obtain ⟨s1, s2, s3, s4⟩ := blobBlock_filters reg i layer nix
        refine ⟨?_, ?_, ?_, ?_⟩ <;>
          rw [List.filter_append] <;>
          simp [s1, s2, s3, s4, t1, t2, t3, t4, List.range'_succ]

/-! ### Lemmas: run-level shapes -/

theorem run_decoded_ok (reg mdl : String) (reads : List (List Nat)) (man : Manifest)
    (out : List String) (h : run reg mdl (.decoded reads man) = .ok out) :
    ∃ blobPs, emitBlobs reg 0 man.layers = .ok blobPs ∧
      out = headerPieces ++ blobPs ++
        manifestPieces (manifestURLOf reg (runParseModel mdl).1 (runParseModel mdl).2)
          (b64String (sha256 reads.flatten)) ++
        joinHeaderPieces ++ pathEntryPieces man.layers.length ++ postHeadPieces ++
        lnEntryPieces man.layers.length ++
        tailPieces reg (runParseModel mdl).1 (runParseModel mdl).2 := by
  by_cases hreg : reg = ""
  · simp [run, hreg] at h
  by_cases hmdl : mdl = ""
  · simp [run, hreg, hmdl] at h
  simp only [run, if_neg hreg, if_neg hmdl] at h
  cases hemit : emitBlobs reg 0 man.layers with
  | error e =>
    rw [hemit] at h
    cases h
  | ok blobPs =>
    rw [hemit] at h
    simp only [Except.ok.injEq] at h
    refine ⟨blobPs, rfl, ?_⟩
    rw [← h, sha256Sum_foldl_write]

theorem convert_error_iff (s : String) :
    isOkE (convertOllamaHashToNixHash s) = false ↔
      (Odd (trimPrefixString s "sha256:").data.length ∨
        ∃ c ∈ (trimPrefixString s "sha256:").data, fromHexChar c = none) := by
  rw [← hexDecode_error_iff]
  rw [convertOllamaHashToNixHash]
  cases hd : hexDecodeChars (trimPrefixString s "sha256:").data with
  | error e => simp [isOkE]
  | ok bs => simp [isOkE]

theorem convert_ok_value (s : String) (bs : List Nat)
    (h : hexDecodeChars (trimPrefixString s "sha256:").data = .ok bs) :
    convertOllamaHashToNixHash s = .ok ("sha256-" ++ b64String bs) := by
  rw [convertOllamaHashToNixHash, h]

theorem emitBlobs_error_iff (reg : String) :
    ∀ (ls : List Layer) (i : Nat),
      isOkE (emitBlobs reg i ls) = false ↔
        ∃ l ∈ ls, isOkE (convertOllamaHashToNixHash l.digest) = false := by
  intro ls
  induction ls with
  | nil =>
    intro i
    simp [emitBlobs, isOkE]
  | cons layer rest ih =>
    intro i
    cases hc : convertOllamaHashToNixHash layer.digest with
    | error e =>
      simp only [emitBlobs, hc]
      constructor
      · intro _
        exact ⟨layer, by simp, by rw [hc]; rfl⟩
      · intro _
        rfl
    | ok nix =>
      cases hr : emitBlobs reg (i + 1) rest with
      | error e =>
        simp only [emitBlobs, hc, hr]
        constructor
        · intro _
          obtain ⟨l, hl1, hl2⟩ := (ih (i + 1)).mp (by rw [hr]; rfl)
          exact ⟨l, by simp [hl1], hl2⟩
        · intro _
          rfl
      | ok tail =>
        simp only [emitBlobs, hc, hr]
        constructor
        · intro hfalse
          cases hfalse
        · rintro ⟨l, hl1, hl2⟩
          rcases List.mem_cons.mp hl1 with h1 | h1
          · rw [h1, hc] at hl2
            cases hl2
          · have h2 := (ih (i + 1)).mpr ⟨l, h1, hl2⟩
            rw [hr] at h2
            cases h2

theorem emitBlobs_error_shape (reg : String) :
    ∀ (ls : List Layer) (i : Nat) (e : String), emitBlobs reg i ls = .error e →
      ∃ m, e = "failed to convert blob hash: " ++ m := by
  intro ls
  induction ls with
  | nil =>
    intro i e h
    cases h
  | cons layer rest ih =>
    intro i e h
    simp only [emitBlobs] at h
    cases hc : convertOllamaHashToNixHash layer.digest with
    | error m =>
      rw [hc] at h
      simp only [Except.error.injEq] at h
      exact ⟨m, h.symm⟩
    | ok nix =>
      rw [hc] at h
      cases hr : emitBlobs reg (i + 1) rest with
      | error e2 =>
        rw [hr] at h
        simp only [Except.error.injEq] at h
        rw [h] at hr
        exact ih (i + 1) e hr
      | ok tail =>
        rw [hr] at h
        cases h

theorem run_error_shape (reg mdl : String) (f : FetchOutcome) (e : String)
    (h : run reg mdl f = .error e) :
    e = "registry is required" ∨ e = "model is required" ∨
      (∃ m, e = "failed to download manifest: " ++ m) ∨
      (∃ m, e = "failed to decode manifest: " ++ m) ∨
      (∃ m, e = "failed to convert blob hash: " ++ m) := by
  by_cases hreg : reg = ""
  · simp [run, hreg] at h
    exact Or.inl h.symm
  by_cases hmdl : mdl = ""
  · simp [run, hreg, hmdl] at h
    exact Or.inr (Or.inl h.symm)
  simp only [run, if_neg hreg, if_neg hmdl] at h
  match f with
  | .netError m =>
    dsimp only at h
    simp only [Except.error.injEq] at h
    exact Or.inr (Or.inr (Or.inl ⟨m, h.symm⟩))
  | .decodeError reads m =>
    dsimp only at h
    simp only [Except.error.injEq] at h
    exact Or.inr (Or.inr (Or.inr (Or.inl ⟨m, h.symm⟩)))
  | .decoded reads man =>
    dsimp only at h
    cases hemit : emitBlobs reg 0 man.layers with
    | error e2 =>
      rw [hemit] at h
      simp only [Except.error.injEq] at h
      rw [h] at hemit
      exact Or.inr (Or.inr (Or.inr (Or.inr (emitBlobs_error_shape reg man.layers 0 e hemit))))
    | ok blobPs =>
      rw [hemit] at h
      cases h

theorem trimPrefix_append (pre rest : String) : trimPrefixString (pre ++ rest) pre = rest := by
  rw [trimPrefixString]
  rw [if_pos (by rw [String.data_append]; exact isPrefixOf_append_self _ _)]
  rw [String.data_append, List.drop_left]

theorem splitN2Colon_spec (l : List Char) :
    (':' ∉ l → splitN2Colon l = [l]) ∧
      (':' ∈ l →
        splitN2Colon l =
          [l.takeWhile (fun c => c != ':'), (l.dropWhile (fun c => c != ':')).drop 1]) := by
  induction l with
  | nil =>
    constructor
    · intro _
      rfl
    · intro h
      simp at h
  | cons c cs ih =>
    by_cases hc : c = ':'
    · subst hc
      constructor
      · intro h
        simp at h
      · intro _
        simp [splitN2Colon, List.takeWhile_cons, List.dropWhile_cons]
    · have hb : (c != ':') = true := by simp [hc]
      constructor
      · intro h
        have hcs : ':' ∉ cs := fun hm => h (List.mem_cons_of_mem c hm)
        simp [splitN2Colon, hc, ih.1 hcs]
      · intro h
        have hcs : ':' ∈ cs := by
          rcases List.mem_cons.mp h with h1 | h1
          · exact absurd h1.symm hc
          · exact h1
        simp [splitN2Colon, hc, ih.2 hcs, List.takeWhile_cons, List.dropWhile_cons, hb]

theorem isOkE_error {ε α : Type} (e : ε) : isOkE (α := α) (.error e) = false := rfl

theorem isOkE_ok {ε α : Type} (a : α) : isOkE (ε := ε) (.ok a) = true := rfl

theorem okPieces_ok (ps : List String) : okPieces (.ok ps) = ps := rfl

/-! ### Concrete manifests used as test inputs -/

/-- The example manifest from the main.go comment, restricted to its first
layer. -/
def exampleManifest : Manifest :=
  ⟨2, "application/vnd.docker.distribution.manifest.v2+json",
    ⟨"sha256:65d37de20e5951c7434ad4230c51a4d5be99b8cb7407d2135074d82c40b44b45",
      "application/vnd.docker.container.image.v1+json", 486⟩,
    [⟨"sha256:b559938ab7a0392fc9ea9675b82280f2a15669ec3e0e0fc491c9cb0a7681cf94",
      "application/vnd.ollama.image.model", 7071700672⟩]⟩

/-- A manifest with no layers. -/
def emptyLayersManifest : Manifest := ⟨2, "", ⟨"", "", 0⟩, []⟩

/-- A manifest whose single layer digest has a valid but 1-byte hex payload. -/
def shortDigestManifest : Manifest := ⟨2, "", ⟨"", "", 0⟩, [⟨"sha256:ab", "", 0⟩]⟩

/-- A manifest whose single layer digest is not hexadecimal. -/
def badDigestManifest : Manifest := ⟨2, "", ⟨"", "", 0⟩, [⟨"zz", "", 0⟩]⟩

/-! ### Claim theorems -/

/-- C1 (code bug): the blob URLs of the emitted recipe use the hardcoded
path segment `mistral-nemo` rather than the model name parsed from the
`-model` flag.  Running with model `llama3` on the example manifest
succeeds, parses the model name `llama3`, yet the single emitted blob URL
piece is the `mistral-nemo` one and no URL piece for `llama3` blobs occurs
anywhere in the output. -/
theorem c1_blob_url_uses_hardcoded_model :
    runParseModel "llama3" = ("llama3", "latest") ∧
      isOkE (run "registry.ollama.ai" "llama3" (.decoded [] exampleManifest)) = true ∧
      ("    url = " ++
          (goQuote
            "https://registry.ollama.ai/v2/library/mistral-nemo/blobs/sha256:b559938ab7a0392fc9ea9675b82280f2a15669ec3e0e0fc491c9cb0a7681cf94" ++
            ";\n")) ∈
        okPieces (run "registry.ollama.ai" "llama3" (.decoded [] exampleManifest)) ∧
      ∀ p ∈ okPieces (run "registry.ollama.ai" "llama3" (.decoded [] exampleManifest)),
        pieceStarts "    url = \"https://registry.ollama.ai/v2/library/llama3/blobs/" p =
          false := by
  decide

/-- C2: whenever `run` succeeds on a decoded manifest, the emitted manifest
fetch declaration (as a contiguous block of the output) carries the hash
`sha256-` followed by the standard padded base64 encoding of the SHA-256
digest of exactly the bytes the JSON decoder consumed through the tee reader
(`reads.flatten`), however those bytes were chunked. -/
theorem c2_manifest_hash_from_consumed_bytes (reg mdl : String) (reads : List (List Nat))
    (man : Manifest) (h : isOkE (run reg mdl (.decoded reads man)) = true) :
    manifestPieces (manifestURLOf reg (runParseModel mdl).1 (runParseModel mdl).2)
      (b64String (sha256 reads.flatten)) <:+:
      okPieces (run reg mdl (.decoded reads man)) := by
  cases hr : run reg mdl (.decoded reads man) with
  | error e =>
    rw [hr, isOkE_error] at h
    cases h
  | ok out =>
    obtain ⟨blobPs, hemit, hshape⟩ := run_decoded_ok reg mdl reads man out hr
    rw [okPieces_ok, hshape]
    exact ⟨headerPieces ++ blobPs,
      joinHeaderPieces ++ pathEntryPieces man.layers.length ++ postHeadPieces ++
        lnEntryPieces man.layers.length ++
        tailPieces reg (runParseModel mdl).1 (runParseModel mdl).2,
      by simp [List.append_assoc]⟩

theorem c2_manifest_hash_from_consumed_bytes_witness :
    manifestPieces
      (manifestURLOf "registry.ollama.ai" (runParseModel "mistral-nemo").1
        (runParseModel "mistral-nemo").2)
      (b64String (sha256 ([[97]] : List (List Nat)).flatten)) <:+:
      okPieces (run "registry.ollama.ai" "mistral-nemo" (.decoded [[97]] emptyLayersManifest)) :=
  c2_manifest_hash_from_consumed_bytes "registry.ollama.ai" "mistral-nemo" [[97]]
    emptyLayersManifest (by decide)

/-- C3: a successful run on a manifest with N layers emits exactly N blob
fetch-declaration headers named `blob_0` … `blob_{N-1}` in order, exactly one
manifest fetch header, exactly N+1 symbols in the aggregation's `paths` list
(the N blobs in order plus `manifestFile`), and N blob symlink lines
referencing the same ordinals in the same order. -/
theorem c3_recipe_block_counts (reg mdl : String) (reads : List (List Nat)) (man : Manifest)
    (h : isOkE (run reg mdl (.decoded reads man)) = true) :
    (okPieces (run reg mdl (.decoded reads man))).filter isBlobHeaderPiece =
        (List.range man.layers.length).map
          (fun i => "  blob_" ++ (toString i ++ " = pkgs.fetchurl \x7b\n")) ∧
      (okPieces (run reg mdl (.decoded reads man))).filter isManifestHeaderPiece =
        ["  manifestFile = pkgs.fetchurl \x7b\n"] ∧
      (okPieces (run reg mdl (.decoded reads man))).filter isPathEntryPiece =
        (List.range man.layers.length).map (fun i => "      blob_" ++ (toString i ++ "\n")) ++
          ["      manifestFile\n"] ∧
      ((okPieces (run reg mdl (.decoded reads man))).filter isPathEntryPiece).length =
        man.layers.length + 1 ∧
      (okPieces (run reg mdl (.decoded reads man))).filter isLnBlobPiece =
        (List.range man.layers.length).map
          (fun i => "      ln -s $\x7bblob_" ++ (toString i ++ "\x7d $out/blobs/\n")) := by
  cases hr : run reg mdl (.decoded reads man) with
  | error e =>
    rw [hr, isOkE_error] at h
    cases h
  | ok out =>
    obtain ⟨blobPs, hemit, hshape⟩ := run_decoded_ok reg mdl reads man out hr
    obtain ⟨e1, e2, e3, e4⟩ := emitBlobs_filters reg man.layers 0 blobPs hemit
    obtain ⟨m1, m2, m3, m4⟩ :=
      manifestPieces_filters
        (manifestURLOf reg (runParseModel mdl).1 (runParseModel mdl).2)
        (b64String (sha256 reads.flatten))
    obtain ⟨t1, t2, t3, t4⟩ :=
      tailPieces_filters reg (runParseModel mdl).1 (runParseModel mdl).2
    obtain ⟨p1, p2, p3, p4⟩ := pathEntryPieces_filters man.layers.length
    obtain ⟨l1, l2, l3, l4⟩ := lnEntryPieces_filters man.layers.length
    have hh1 : headerPieces.filter isBlobHeaderPiece = [] := by decide
    have hh2 : headerPieces.filter isManifestHeaderPiece = [] := by decide
    have hh3 : headerPieces.filter isPathEntryPiece = [] := by decide
    have hh4 : headerPieces.filter isLnBlobPiece = [] := by decide
    have hj1 : joinHeaderPieces.filter isBlobHeaderPiece = [] := by decide
    have hj2 : joinHeaderPieces.filter isManifestHeaderPiece = [] := by decide
    have hj3 : joinHeaderPieces.filter isPathEntryPiece = [] := by decide
    have hj4 : joinHeaderPieces.filter isLnBlobPiece = [] := by decide
    have hp1 : postHeadPieces.filter isBlobHeaderPiece = [] := by decide
    have hp2 : postHeadPieces.filter isManifestHeaderPiece = [] := by decide
    have hp3 : postHeadPieces.filter isPathEntryPiece = ["      manifestFile\n"] := by decide
    have hp4 : postHeadPieces.filter isLnBlobPiece = [] := by decide
    have hrange : List.range man.layers.length = List.range' 0 man.layers.length :=
      List.range_eq_range' man.layers.length
    rw [okPieces_ok, hshape]
    have hfil3 : (headerPieces ++ blobPs ++
          manifestPieces (manifestURLOf reg (runParseModel mdl).1 (runParseModel mdl).2)
            (b64String (sha256 reads.flatten)) ++
          joinHeaderPieces ++ pathEntryPieces man.layers.length ++ postHeadPieces ++
          lnEntryPieces man.layers.length ++
          tailPieces reg (runParseModel mdl).1 (runParseModel mdl).2).filter isPathEntryPiece =
        (List.range man.layers.length).map (fun i => "      blob_" ++ (toString i ++ "\n")) ++
          ["      manifestFile\n"] := by
      simp only [List.filter_append, e3, m3, t3, p3, l3, hh3, hj3, hp3]
      simp [pathEntryPieces, hrange]
    refine ⟨?_, ?_, hfil3, ?_, ?_⟩
    · simp only [List.filter_append, e1, m1, t1, p1, l1, hh1, hj1, hp1, hrange]
      simp
    · simp only [List.filter_append, e2, m2, t2, p2, l2, hh2, hj2, hp2]
      simp
    · rw [hfil3]
      simp
    · simp only [List.filter_append, e4, m4, t4, p4, l4, hh4, hj4, hp4]
      simp [lnEntryPieces, hrange]

theorem c3_recipe_block_counts_witness :
    (okPieces (run "registry.ollama.ai" "llama3" (.decoded [] exampleManifest))).filter
        isBlobHeaderPiece =
      (List.range exampleManifest.layers.length).map
        (fun i => "  blob_" ++ (toString i ++ " = pkgs.fetchurl \x7b\n")) :=
  (c3_recipe_block_counts "registry.ollama.ai" "llama3" [] exampleManifest (by decide)).1

/-- C4: for every 64-character lowercase hex string, with or without a
leading `sha256:` prefix, the transcoder succeeds with `sha256-<base64>`;
stripping the `sha256-` prefix, base64-decoding and hex-re-encoding the
result recovers the original hex digest. -/
theorem c4_hash_transcoder_roundtrip (s : String) (hlen : s.data.length = 64)
    (hhex : ∀ c ∈ s.data, c ∈ hexLowerTable) :
    ∃ bs, convertOllamaHashToNixHash s = .ok ("sha256-" ++ b64String bs) ∧
      convertOllamaHashToNixHash ("sha256:" ++ s) = .ok ("sha256-" ++ b64String bs) ∧
      trimPrefixString ("sha256-" ++ b64String bs) "sha256-" = b64String bs ∧
      b64DecodeChars (b64String bs).data = some bs ∧
      hexString bs = s := by
  obtain ⟨bs, hd, hb, he⟩ := hexDecode_roundtrip s.data hhex (by rw [hlen])
  have hnp : "sha256:".data.isPrefixOf s.data = false := by
    cases hp : "sha256:".data.isPrefixOf s.data
    · rfl
    · exfalso
      have h6 := isPrefixOf_getD "sha256:".data s.data hp 6 (by decide)
      have h7 : s.data.getD 6 'a' = ':' := by rw [h6]; decide
      have hmem : s.data.getD 6 'a' ∈ s.data := by
        rw [List.getD_eq_getElem s.data 'a' (by omega)]
        exact List.getElem_mem (by omega)
      rw [h7] at hmem
      have hcontra := hhex ':' hmem
      simp [hexLowerTable] at hcontra
  have htrim : trimPrefixString s "sha256:" = s := by
    rw [trimPrefixString, hnp]
    simp
  refine ⟨bs, ?_, ?_, ?_, ?_, ?_⟩
  · exact convert_ok_value s bs (by rw [htrim]; exact hd)
  · exact convert_ok_value ("sha256:" ++ s) bs (by rw [trimPrefix_append "sha256:" s]; exact hd)
  · exact trimPrefix_append "sha256-" (b64String bs)
  · exact b64_roundtrip bs hb
  · rw [hexString, he]

theorem c4_hash_transcoder_roundtrip_witness :
    ∃ bs,
      convertOllamaHashToNixHash
          "aaaaaaaaaaaaaaaaaaaaaaaaaaaaaaaaaaaaaaaaaaaaaaaaaaaaaaaaaaaaaaaa" =
        .ok ("sha256-" ++ b64String bs) ∧
      convertOllamaHashToNixHash
          ("sha256:" ++ "aaaaaaaaaaaaaaaaaaaaaaaaaaaaaaaaaaaaaaaaaaaaaaaaaaaaaaaaaaaaaaaa") =
        .ok ("sha256-" ++ b64String bs) ∧
      trimPrefixString ("sha256-" ++ b64String bs) "sha256-" = b64String bs ∧
      b64DecodeChars (b64String bs).data = some bs ∧
      hexString bs = "aaaaaaaaaaaaaaaaaaaaaaaaaaaaaaaaaaaaaaaaaaaaaaaaaaaaaaaaaaaaaaaa" :=
  c4_hash_transcoder_roundtrip "aaaaaaaaaaaaaaaaaaaaaaaaaaaaaaaaaaaaaaaaaaaaaaaaaaaaaaaaaaaaaaaa"
    (by decide) (by decide)

/-- C5 counterexample: a layer digest whose hex payload has a valid but
wrong length (2 hex characters) is converted successfully and the whole run
succeeds, contradicting the claim that such digests make the run fail. -/
theorem c5_counterexample_short_digest_accepted :
    convertOllamaHashToNixHash "sha256:ab" = .ok "sha256-qw==" ∧
      (trimPrefixString "sha256:ab" "sha256:").data.length = 2 ∧
      isOkE (run "registry.ollama.ai" "mistral-nemo" (.decoded [] shortDigestManifest)) =
        true := by
  decide

/-- C5 amended: for a fetched and decoded manifest the run fails exactly when
some layer digest, after stripping an optional `sha256:` prefix, has odd
length or a non-hex character; the length itself is not validated, so any
even-length hex payload (including empty or 2 characters) is accepted. -/
theorem c5_amended_digest_validity (reg mdl : String) (reads : List (List Nat))
    (man : Manifest) (hreg : reg ≠ "") (hmdl : mdl ≠ "") :
    isOkE (run reg mdl (.decoded reads man)) = false ↔
      ∃ layer ∈ man.layers,
        Odd (trimPrefixString layer.digest "sha256:").data.length ∨
          ∃ c ∈ (trimPrefixString layer.digest "sha256:").data, fromHexChar c = none := by
  have h1 : isOkE (run reg mdl (.decoded reads man)) = false ↔
      isOkE (emitBlobs reg 0 man.layers) = false := by
    cases hemit : emitBlobs reg 0 man.layers with
    | error e => simp [run, hreg, hmdl, hemit, isOkE_error]
    | ok ps => simp [run, hreg, hmdl, hemit, isOkE_error, isOkE_ok]
  rw [h1, emitBlobs_error_iff reg man.layers 0]
  constructor
  · rintro ⟨l, hl1, hl2⟩
    exact ⟨l, hl1, (convert_error_iff l.digest).mp hl2⟩
  · rintro ⟨l, hl1, hl2⟩
    exact ⟨l, hl1, (convert_error_iff l.digest).mpr hl2⟩

theorem c5_amended_digest_validity_witness :
    isOkE (run "registry.ollama.ai" "mistral-nemo" (.decoded [] badDigestManifest)) = false :=
  (c5_amended_digest_validity "registry.ollama.ai" "mistral-nemo" [] badDigestManifest
    (by decide) (by decide)).mpr (by decide)

/-- C6: the transcoder errors exactly when the input, after removal of one
leading `sha256:` prefix when present (a non-matching prefix stays in place,
which is what `trimPrefixString` does), has odd length or a non-hex
character; otherwise it returns `sha256-` followed by the standard padded
base64 encoding of the decoded bytes. -/
theorem c6_transcoder_error_characterization (s : String) :
    (isOkE (convertOllamaHashToNixHash s) = false ↔
      (Odd (trimPrefixString s "sha256:").data.length ∨
        ∃ c ∈ (trimPrefixString s "sha256:").data, fromHexChar c = none)) ∧
    ∀ bs, hexDecodeChars (trimPrefixString s "sha256:").data = .ok bs →
      convertOllamaHashToNixHash s = .ok ("sha256-" ++ b64String bs) :=
  ⟨convert_error_iff s, fun bs h => convert_ok_value s bs h⟩

theorem c6_transcoder_error_characterization_witness :
    convertOllamaHashToNixHash "sha256:ab" = .ok ("sha256-" ++ b64String [171]) :=
  (c6_transcoder_error_characterization "sha256:ab").2 [171] (by decide)

/-- C7: the model identifier is split at the first colon only, with version
defaulting to the literal `latest` when no colon is present; in particular
the three spec examples hold. -/
theorem c7_identifier_parsing :
    runParseModel "mistral-nemo" = ("mistral-nemo", "latest") ∧
      runParseModel "mistral-nemo:7b" = ("mistral-nemo", "7b") ∧
      runParseModel "a:b:c" = ("a", "b:c") ∧
      ∀ s : String,
        (':' ∉ s.data → runParseModel s = (s, "latest")) ∧
        (':' ∈ s.data →
          runParseModel s =
            (String.mk (s.data.takeWhile (fun c => c != ':')),
              String.mk ((s.data.dropWhile (fun c => c != ':')).drop 1))) := by
  refine ⟨by decide, by decide, by decide, ?_⟩
  intro s
  constructor
  · intro h
    rw [runParseModel, (splitN2Colon_spec s.data).1 h]
  · intro h
    rw [runParseModel, (splitN2Colon_spec s.data).2 h]

theorem c7_identifier_parsing_witness :
    runParseModel "a:b:c" =
      (String.mk ("a:b:c".data.takeWhile (fun c => c != ':')),
        String.mk (("a:b:c".data.dropWhile (fun c => c != ':')).drop 1)) :=
  (c7_identifier_parsing.2.2.2 "a:b:c").2 (by decide)

/-- C8 counterexample: the identifier `:7b` has an empty name part, yet it
passes validation (only the entirely empty `-model` flag is rejected), the
manifest request is issued to `/v2/library//manifests/7b`, and the run can
even succeed — contradicting "fails at the validation step, before any
network request". -/
theorem c8_counterexample_colon_version_requests :
    runParseModel ":7b" = ("", "7b") ∧
      runRequests "registry.ollama.ai" ":7b" =
        ["https://registry.ollama.ai/v2/library//manifests/7b"] ∧
      isOkE (run "registry.ollama.ai" ":7b" (.decoded [] emptyLayersManifest)) = true := by
  decide

/-- C8 amended: only the empty `-model` flag fails at validation before the
network request; every non-empty identifier — including `:version` forms
with an empty parsed name — reaches the single manifest GET. -/
theorem c8_amended_only_empty_model_rejected (reg : String) (hreg : reg ≠ "") :
    (∀ f, run reg "" f = .error "model is required") ∧
      runRequests reg "" = [] ∧
      ∀ mdl, mdl ≠ "" →
        runRequests reg mdl =
          [manifestURLOf reg (runParseModel mdl).1 (runParseModel mdl).2] := by
  refine ⟨?_, ?_, ?_⟩
  · intro f
    simp [run, hreg]
  · simp [runRequests, hreg]
  · intro mdl hmdl
    simp [runRequests, hreg, hmdl]

theorem c8_amended_only_empty_model_rejected_witness :
    run "registry.ollama.ai" "" (.netError "boom") = .error "model is required" ∧
      runRequests "registry.ollama.ai" "" = [] ∧
      runRequests "registry.ollama.ai" ":7b" =
        [manifestURLOf "registry.ollama.ai" (runParseModel ":7b").1 (runParseModel ":7b").2] :=
  ⟨(c8_amended_only_empty_model_rejected "registry.ollama.ai" (by decide)).1 (.netError "boom"),
    (c8_amended_only_empty_model_rejected "registry.ollama.ai" (by decide)).2.1,
    (c8_amended_only_empty_model_rejected "registry.ollama.ai" (by decide)).2.2 ":7b"
      (by decide)⟩

/-- C9: every run either succeeds, printing exactly the complete recipe (the
concatenation of all builder pieces plus the trailing newline of
`fmt.Println`) with exit code 0, or fails, printing only an error message
with exit code 1 — and that error line never begins with the recipe header,
so no partial recipe reaches standard output. -/
theorem c9_all_or_nothing_output (reg mdl : String) (f : FetchOutcome) :
    (∃ ps, run reg mdl f = .ok ps ∧ mainOutput reg mdl f = (String.join ps ++ "\n", 0)) ∨
      (∃ e, run reg mdl f = .error e ∧ mainOutput reg mdl f = (e ++ "\n", 1) ∧
        pieceStarts "\x7b pkgs ? import <nixpkgs> \x7b\x7d \x7d:\n" (e ++ "\n") = false) := by
  cases hr : run reg mdl f with
  | ok ps =>
    left
    exact ⟨ps, rfl, by simp [mainOutput, hr]⟩
  | error e =>
    right
    refine ⟨e, rfl, by simp [mainOutput, hr], ?_⟩
    rcases run_error_shape reg mdl f e hr with h1 | h1 | ⟨m, h1⟩ | ⟨m, h1⟩ | ⟨m, h1⟩
    · rw [h1]
      exact pieceStarts_lit_false _ "registry is required" "\n" 0 (by decide) (by decide)
        (by decide)
    · rw [h1]
      exact pieceStarts_lit_false _ "model is required" "\n" 0 (by decide) (by decide)
        (by decide)
    · rw [h1, String.append_assoc]
      exact pieceStarts_lit_false _ "failed to download manifest: " (m ++ "\n") 0 (by decide)
        (by decide) (by decide)
    · rw [h1, String.append_assoc]
      exact pieceStarts_lit_false _ "failed to decode manifest: " (m ++ "\n") 0 (by decide)
        (by decide) (by decide)
    · rw [h1, String.append_assoc]
      exact pieceStarts_lit_false _ "failed to convert blob hash: " (m ++ "\n") 0 (by decide)
        (by decide) (by decide)

/-- C10: the decoded manifest's `config` layer is never used: two manifests
differing only in their `config` field produce identical run results, so no
fetch declaration, URL, hash or symlink derived from the config digest can
occur in the output. -/
theorem c10_config_layer_unused (reg mdl : String) (reads : List (List Nat)) (sv : Int)
    (mt : String) (cfg cfg2 : Layer) (layers : List Layer) :
    run reg mdl (.decoded reads (Manifest.mk sv mt cfg layers)) =
      run reg mdl (.decoded reads (Manifest.mk sv mt cfg2 layers)) := rfl

end Ollama2nix
